import Mathlib

/-!
Verification of the PID platform simulator core.

Shallow embedding of `src/pid_controller.py` and `src/physics_platform.py`.
Real-valued quantities are modelled by `ℚ`; `np.clip(a, lo, hi)` is
`min (max a lo) hi`, matching NumPy's definition.  The Python `enabled`
argument is `Optional[dict]` with per-key lookups `enabled.get(k, True)`;
it is modelled as `Option EnabledMask` with `Option Bool` fields, where a
`none` field stands for a missing dictionary key.
-/

/-- `np.clip(a, lo, hi) = np.minimum(np.maximum(a, lo), hi)`. -/
def clip (a lo hi : ℚ) : ℚ := min (max a lo) hi

/-- The per-term enable mask: the Python `enabled` dict.  Each field is
`none` when the key is absent from the dict. -/
structure EnabledMask where
  kp : Option Bool
  ki : Option Bool
  kd : Option Bool
deriving DecidableEq

/-- `enabled.get('kp', True)` after the `enabled is None` default. -/
def kpEnabled : Option EnabledMask → Bool
  | none => true
  | some m => m.kp.getD true

/-- `enabled.get('ki', True)` after the `enabled is None` default. -/
def kiEnabled : Option EnabledMask → Bool
  | none => true
  | some m => m.ki.getD true

/-- `enabled.get('kd', True)` after the `enabled is None` default. -/
def kdEnabled : Option EnabledMask → Bool
  | none => true
  | some m => m.kd.getD true

/-- `PIDState` dataclass of `src/pid_controller.py`. -/
structure PIDState where
  error : ℚ
  integral : ℚ
  derivative : ℚ
  last_error : ℚ
  output : ℚ
deriving DecidableEq

/-- The default `PIDState()`: all fields `0.0`. -/
def PIDState.init : PIDState :=
  { error := 0, integral := 0, derivative := 0, last_error := 0, output := 0 }

/-- `PIDController` of `src/pid_controller.py`: gains, state, and the two
clamp constants set in `__init__` (they are never mutated elsewhere). -/
structure PIDController where
  kp : ℚ
  ki : ℚ
  kd : ℚ
  state : PIDState
  integral_limit : ℚ
  output_limit : ℚ
deriving DecidableEq

/-- `PIDController.__init__(kp, ki, kd)`. -/
def PIDController.init (kp ki kd : ℚ) : PIDController :=
  { kp := kp, ki := ki, kd := kd, state := PIDState.init,
    integral_limit := 1000, output_limit := 100 }

/-- `PIDController.update(setpoint, current_value, dt, enabled)`:
returns the updated controller together with the returned output. -/
def PIDController.update (c : PIDController) (setpoint current_value dt : ℚ)
    (enabled : Option EnabledMask) : PIDController × ℚ :=
  let error := setpoint - current_value
  let p_term : ℚ := if kpEnabled enabled then c.kp * error else 0
  let integral : ℚ :=
    if kiEnabled enabled then
      clip (c.state.integral + error * dt) (-c.integral_limit) c.integral_limit
    else
      c.state.integral
  let i_term : ℚ := if kiEnabled enabled then c.ki * integral else 0
  let derivative : ℚ :=
    if kdEnabled enabled ∧ 0 < dt then (error - c.state.last_error) / dt else 0
  let d_term : ℚ :=
    if kdEnabled enabled ∧ 0 < dt then c.kd * derivative else 0
  let output : ℚ := clip (p_term + i_term + d_term) (-c.output_limit) c.output_limit
  ({ c with state := { error := error, integral := integral, derivative := derivative,
                       last_error := error, output := output } }, output)

/-- `PIDController.reset()`: `self.state = PIDState()`. -/
def PIDController.reset (c : PIDController) : PIDController :=
  { c with state := PIDState.init }

/-- `PIDController.set_gains(kp, ki, kd)`. -/
def PIDController.set_gains (c : PIDController) (kp ki kd : ℚ) : PIDController :=
  { c with kp := kp, ki := ki, kd := kd }

/-- `PIDController.get_components()`. -/
def PIDController.get_components (c : PIDController) : ℚ × ℚ × ℚ :=
  (c.kp * c.state.error, c.ki * c.state.integral, c.kd * c.state.derivative)

/-- One `update` call described by its four arguments. -/
structure PIDInput where
  setpoint : ℚ
  current_value : ℚ
  dt : ℚ
  enabled : Option EnabledMask

/-- Apply one described `update` call, keeping only the controller. -/
def PIDController.step (c : PIDController) (inp : PIDInput) : PIDController :=
  (c.update inp.setpoint inp.current_value inp.dt inp.enabled).1

/-- A sequence of consecutive `update` calls. -/
def PIDController.updates (c : PIDController) (l : List PIDInput) : PIDController :=
  l.foldl PIDController.step c

/-- `Platform` of `src/physics_platform.py` (drawing-only attributes
`width`, `height`, `color` omitted: they are constants never read by the
dynamics). -/
structure Platform where
  x : ℚ
  y : ℚ
  mass : ℚ
  velocity : ℚ
  acceleration : ℚ
  wind_force : ℚ
deriving DecidableEq

/-- `Platform.__init__(x, y, mass)`. -/
def Platform.init (x y mass : ℚ) : Platform :=
  { x := x, y := y, mass := mass, velocity := 0, acceleration := 0, wind_force := 0 }

/-- `Platform.apply_force(force)`: `self.acceleration = force / self.mass`. -/
def Platform.apply_force (p : Platform) (force : ℚ) : Platform :=
  { p with acceleration := force / p.mass }

/-- `Platform.update(dt)`. -/
def Platform.update (p : Platform) (dt : ℚ) : Platform :=
  let control_force := p.acceleration * p.mass
  let wind_acceleration := p.wind_force / p.mass
  let damping : ℚ := 1/10
  let damping_acceleration := -damping * p.velocity
  let total_force := control_force + p.wind_force
  let deadband_threshold : ℚ := 5
  let integrate : ℚ → Platform := fun damping_acceleration =>
    let total_acceleration := p.acceleration + wind_acceleration + damping_acceleration
    let velocity := p.velocity + total_acceleration * dt
    { p with velocity := velocity, x := p.x + velocity * dt, acceleration := 0 }
  if |total_force| < deadband_threshold then
    if |p.velocity| < 1/2 then
      { p with velocity := 0, acceleration := 0 }
    else
      integrate (-(1/2) * p.velocity)
  else
    integrate damping_acceleration

/-- `Platform.set_position(x)`. -/
def Platform.set_position (p : Platform) (x : ℚ) : Platform :=
  { p with x := x, velocity := 0, acceleration := 0 }

/-- The driver's per-tick use of the platform: re-apply the control force,
then integrate one timestep (`main.py` calls `apply_force` then `update`
every tick). -/
def Platform.forcedTick (p : Platform) (force dt : ℚ) : Platform :=
  (p.apply_force force).update dt

/-- `n` driver ticks with the same force and timestep. -/
def Platform.forcedRun (p : Platform) (force dt : ℚ) : Nat → Platform
  | 0 => p
  | n + 1 => (p.forcedRun force dt n).forcedTick force dt

/- ### Basic facts about `clip` and `update` bookkeeping -/

lemma clip_mem (a lo hi : ℚ) (h : lo ≤ hi) : lo ≤ clip a lo hi ∧ clip a lo hi ≤ hi :=
  ⟨le_min (le_max_right a lo) h, min_le_right _ _⟩

lemma step_integral_limit (c : PIDController) (inp : PIDInput) :
    (c.step inp).integral_limit = c.integral_limit := rfl

lemma updates_integral_limit (c : PIDController) (l : List PIDInput) :
    (c.updates l).integral_limit = c.integral_limit := by
  induction l generalizing c with
  | nil => rfl
  | cons a t ih => exact ih (c.step a)

/- ### C7: reset zeroes the state and nothing else -/

/-- C7: `reset()` sets all five state fields to 0 and leaves the gains and
both clamp limits unchanged, for any prior controller state. -/
theorem reset_zeroes_state_only (c : PIDController) :
    (c.reset).state.error = 0 ∧ (c.reset).state.integral = 0 ∧
    (c.reset).state.derivative = 0 ∧ (c.reset).state.last_error = 0 ∧
    (c.reset).state.output = 0 ∧
    (c.reset).kp = c.kp ∧ (c.reset).ki = c.ki ∧ (c.reset).kd = c.kd ∧
    (c.reset).integral_limit = c.integral_limit ∧
    (c.reset).output_limit = c.output_limit := by
  refine ⟨rfl, rfl, rfl, rfl, rfl, rfl, rfl, rfl, rfl, rfl⟩

/- ### C8: last_error is always the freshly computed error -/

/-- C8: after every `update`, `state.last_error` equals the error computed in
that call (`setpoint - current_value`), for every mask and every `dt`. -/
theorem update_last_error (c : PIDController) (sp cv dt : ℚ) (e : Option EnabledMask) :
    ((c.update sp cv dt e).1).state.last_error = sp - cv := rfl

/- ### C9: apply_force overwrites rather than accumulates -/

/-- C9: two consecutive `apply_force` calls before an `update` are equivalent
to the second call alone: the acceleration is overwritten, not accumulated. -/
theorem apply_force_overwrites (p : Platform) (f1 f2 : ℚ) :
    (p.apply_force f1).apply_force f2 = p.apply_force f2 := rfl

lemma step_integral_frozen (c : PIDController) (inp : PIDInput)
    (h : kiEnabled inp.enabled = false) :
    (c.step inp).state.integral = c.state.integral := by
  simp [PIDController.step, PIDController.update, h]

lemma step_integral_enabled (c : PIDController) (inp : PIDInput)
    (h : kiEnabled inp.enabled = true) :
    (c.step inp).state.integral =
      clip (c.state.integral + (inp.setpoint - inp.current_value) * inp.dt)
        (-c.integral_limit) c.integral_limit := by
  simp [PIDController.step, PIDController.update, h]

lemma updates_integral_frozen (c : PIDController) (l : List PIDInput)
    (h : ∀ j ∈ l, kiEnabled j.enabled = false) :
    (c.updates l).state.integral = c.state.integral := by
  induction l generalizing c with
  | nil => rfl
  | cons a t ih =>
      have ha : (c.step a).state.integral = c.state.integral :=
        step_integral_frozen c a (h a (List.mem_cons_self a t))
      have ht := ih (c.step a) (fun j hj => h j (List.mem_cons_of_mem a hj))
      calc (c.updates (a :: t)).state.integral
          = ((c.step a).updates t).state.integral := rfl
        _ = (c.step a).state.integral := ht
        _ = c.state.integral := ha

lemma updates_integral_bounded (c : PIDController) (l : List PIDInput)
    (hlim : 0 ≤ c.integral_limit)
    (hc : -c.integral_limit ≤ c.state.integral ∧ c.state.integral ≤ c.integral_limit)
    (hl : ∀ j ∈ l, kiEnabled j.enabled = true) :
    -c.integral_limit ≤ (c.updates l).state.integral ∧
    (c.updates l).state.integral ≤ c.integral_limit := by
  induction l generalizing c with
  | nil => exact hc
  | cons a t ih =>
      have ha : (c.step a).state.integral =
          clip (c.state.integral + (a.setpoint - a.current_value) * a.dt)
            (-c.integral_limit) c.integral_limit :=
        step_integral_enabled c a (hl a (List.mem_cons_self a t))
      have hb : -c.integral_limit ≤ (c.step a).state.integral ∧
          (c.step a).state.integral ≤ c.integral_limit := by
        rw [ha]
        exact clip_mem _ _ _ (by linarith)
      exact ih (c.step a) hlim hb (fun j hj => hl j (List.mem_cons_of_mem a hj))

/- ### C1: the update output is always within the output limits -/

/-- C1: for any `dt > 0`, any gains, any mask, and any prior controller
state, the value returned by `update` lies in
`[-output_limit, output_limit]`, and it is exactly the stored
`state.output`.  (In the code `output_limit` is the constant `100.0` set in
`__init__` and never mutated, so `0 ≤ output_limit` always holds.) -/
theorem update_output_bounded (c : PIDController) (sp cv dt : ℚ)
    (e : Option EnabledMask) (hL : 0 ≤ c.output_limit) (_hdt : 0 < dt) :
    -c.output_limit ≤ (c.update sp cv dt e).2 ∧
    (c.update sp cv dt e).2 ≤ c.output_limit ∧
    ((c.update sp cv dt e).1).state.output = (c.update sp cv dt e).2 := by
  obtain ⟨s, hs⟩ : ∃ s, (c.update sp cv dt e).2 = clip s (-c.output_limit) c.output_limit :=
    ⟨_, rfl⟩
  have h := clip_mem s (-c.output_limit) c.output_limit (by linarith)
  exact ⟨hs ▸ h.1, hs ▸ h.2, rfl⟩

theorem update_output_bounded_witness :
    (0:ℚ) ≤ (PIDController.init 2 3 4).output_limit ∧ (0:ℚ) < 1 ∧
    (-(PIDController.init 2 3 4).output_limit ≤
        ((PIDController.init 2 3 4).update 300 0 1 none).2 ∧
      ((PIDController.init 2 3 4).update 300 0 1 none).2 ≤
        (PIDController.init 2 3 4).output_limit ∧
      (((PIDController.init 2 3 4).update 300 0 1 none).1).state.output =
        ((PIDController.init 2 3 4).update 300 0 1 none).2) :=
  ⟨by norm_num [PIDController.init], by norm_num,
    update_output_bounded (PIDController.init 2 3 4) 300 0 1 none
      (by norm_num [PIDController.init]) (by norm_num)⟩

/- ### C2: constant force 20 from rest gives a monotone run below terminal velocity -/

lemma forcedTick_20 (p : Platform) (hm : p.mass = 1) (hw : p.wind_force = 0) :
    (p.forcedTick 20 (1/60)).velocity = p.velocity * (599/600) + 1/3 ∧
    (p.forcedTick 20 (1/60)).x = p.x + (p.velocity * (599/600) + 1/3) * (1/60) ∧
    (p.forcedTick 20 (1/60)).mass = 1 ∧ (p.forcedTick 20 (1/60)).wind_force = 0 := by
  simp only [Platform.forcedTick, Platform.apply_force, Platform.update, hm, hw]
  norm_num
  ring

lemma forcedRun_inv (n : Nat) :
    ((Platform.init 0 0 1).forcedRun 20 (1/60) n).mass = 1 ∧
    ((Platform.init 0 0 1).forcedRun 20 (1/60) n).wind_force = 0 ∧
    0 ≤ ((Platform.init 0 0 1).forcedRun 20 (1/60) n).velocity ∧
    ((Platform.init 0 0 1).forcedRun 20 (1/60) n).velocity < 200 ∧
    0 ≤ ((Platform.init 0 0 1).forcedRun 20 (1/60) n).x := by
  induction n with
  | zero => norm_num [Platform.forcedRun, Platform.init]
  | succ n ih =>
      obtain ⟨hm, hw, h0, h200, hx⟩ := ih
      have h := forcedTick_20 _ hm hw
      have hstep : (Platform.init 0 0 1).forcedRun 20 (1/60) (n+1) =
          ((Platform.init 0 0 1).forcedRun 20 (1/60) n).forcedTick 20 (1/60) := rfl
      rw [hstep, h.1, h.2.1]
      refine ⟨h.2.2.1, h.2.2.2, by linarith, by linarith, by linarith⟩

/-- C2: with `mass = 1` and no wind, re-applying `apply_force(20)` and
calling `update(1/60)` each tick from rest at position 0 makes velocity and
position strictly positive and strictly increasing on every tick, with the
velocity always below the terminal value `200` implied by the damping
coefficient `0.1`. -/
theorem platform_forced_run_monotone (n : Nat) :
    0 < ((Platform.init 0 0 1).forcedRun 20 (1/60) (n+1)).velocity ∧
    0 < ((Platform.init 0 0 1).forcedRun 20 (1/60) (n+1)).x ∧
    ((Platform.init 0 0 1).forcedRun 20 (1/60) n).velocity <
      ((Platform.init 0 0 1).forcedRun 20 (1/60) (n+1)).velocity ∧
    ((Platform.init 0 0 1).forcedRun 20 (1/60) n).x <
      ((Platform.init 0 0 1).forcedRun 20 (1/60) (n+1)).x ∧
    ((Platform.init 0 0 1).forcedRun 20 (1/60) (n+1)).velocity < 200 := by
  obtain ⟨hm, hw, h0, h200, hx⟩ := forcedRun_inv n
  have h := forcedTick_20 _ hm hw
  have hstep : (Platform.init 0 0 1).forcedRun 20 (1/60) (n+1) =
      ((Platform.init 0 0 1).forcedRun 20 (1/60) n).forcedTick 20 (1/60) := rfl
  rw [hstep, h.1, h.2.1]
  refine ⟨by linarith, by linarith, by linarith, by linarith, by linarith⟩

/- ### C5: deadband holds the platform at rest -/

/-- C5: with `mass = 1`, `wind_force = 0` and the platform at rest, one
`apply_force(f)` with `|f| < 5` followed by `update(dt)` leaves the platform
unmoved: velocity 0, position unchanged, acceleration 0. -/
theorem deadband_at_rest (p : Platform) (f dt : ℚ)
    (hm : p.mass = 1) (hw : p.wind_force = 0) (hv : p.velocity = 0)
    (hf : |f| < 5) :
    ((p.apply_force f).update dt).velocity = 0 ∧
    ((p.apply_force f).update dt).x = p.x ∧
    ((p.apply_force f).update dt).acceleration = 0 := by
  simp only [Platform.apply_force, Platform.update, hm, hw, hv]
  norm_num [hf]

theorem deadband_at_rest_witness :
    (Platform.init 7 0 1).mass = 1 ∧ (Platform.init 7 0 1).wind_force = 0 ∧
    (Platform.init 7 0 1).velocity = 0 ∧ |(3:ℚ)| < 5 ∧
    ((((Platform.init 7 0 1).apply_force 3).update (1/60)).velocity = 0 ∧
      (((Platform.init 7 0 1).apply_force 3).update (1/60)).x = (Platform.init 7 0 1).x ∧
      (((Platform.init 7 0 1).apply_force 3).update (1/60)).acceleration = 0) :=
  ⟨rfl, rfl, rfl, by norm_num,
    deadband_at_rest (Platform.init 7 0 1) 3 (1/60) rfl rfl rfl (by norm_num)⟩

/- ### C6: dt = 0 gives a zero derivative, no division by zero -/

/-- The mask with the derivative key explicitly disabled. -/
def maskKdOff : Option EnabledMask → Option EnabledMask
  | none => some { kp := none, ki := none, kd := some false }
  | some m => some { m with kd := some false }

lemma kpEnabled_maskKdOff (e : Option EnabledMask) :
    kpEnabled (maskKdOff e) = kpEnabled e := by cases e <;> rfl

lemma kiEnabled_maskKdOff (e : Option EnabledMask) :
    kiEnabled (maskKdOff e) = kiEnabled e := by cases e <;> rfl

lemma kdEnabled_maskKdOff (e : Option EnabledMask) :
    kdEnabled (maskKdOff e) = false := by cases e <;> rfl

/-- C6: `update` with `dt = 0` sets `state.derivative` to 0 and behaves
exactly as if the derivative term were disabled, so the division by `dt`
is never reached: `dt == 0` is not an error condition. -/
theorem update_dt_zero_derivative (c : PIDController) (sp cv : ℚ)
    (e : Option EnabledMask) :
    ((c.update sp cv 0 e).1).state.derivative = 0 ∧
    c.update sp cv 0 e = c.update sp cv 0 (maskKdOff e) := by
  constructor
  · simp [PIDController.update]
  · simp [PIDController.update, kpEnabled_maskKdOff, kiEnabled_maskKdOff,
      kdEnabled_maskKdOff]

/- ### C3: a disabled integral term freezes state.integral exactly -/

/-- C3: across any number of consecutive updates whose mask disables the
integral term, `state.integral` is unchanged after each call; a subsequent
update with the integral term re-enabled accumulates from that preserved
value (`clip(integral + error*dt, ±integral_limit)`); and with the integral
term disabled for an entire run starting from `reset`, `state.integral`
stays 0 after every call. -/
theorem integral_frozen_when_disabled (c : PIDController) (l : List PIDInput)
    (inp : PIDInput) (hl : ∀ j ∈ l, kiEnabled j.enabled = false)
    (hi : kiEnabled inp.enabled = true) :
    (∀ n : Nat, (c.updates (l.take n)).state.integral = c.state.integral) ∧
    ((c.updates l).step inp).state.integral =
      clip (c.state.integral + (inp.setpoint - inp.current_value) * inp.dt)
        (-c.integral_limit) c.integral_limit ∧
    (∀ n : Nat, ((c.reset).updates (l.take n)).state.integral = 0) := by
  refine ⟨?_, ?_, ?_⟩
  · intro n
    exact updates_integral_frozen c (l.take n)
      (fun j hj => hl j (List.take_subset n l hj))
  · have hfrozen : (c.updates l).state.integral = c.state.integral :=
      updates_integral_frozen c l hl
    have hlim : (c.updates l).integral_limit = c.integral_limit :=
      updates_integral_limit c l
    rw [step_integral_enabled (c.updates l) inp hi, hfrozen, hlim]
  · intro n
    exact updates_integral_frozen (c.reset) (l.take n)
      (fun j hj => hl j (List.take_subset n l hj))

/-- A concrete update call with the integral term disabled by the mask. -/
def sampleOffInput : PIDInput :=
  { setpoint := 10, current_value := 0, dt := 1,
    enabled := some { kp := some true, ki := some false, kd := some true } }

/-- A concrete update call with the default all-enabled mask. -/
def sampleOnInput : PIDInput :=
  { setpoint := 10, current_value := 0, dt := 1, enabled := none }

theorem integral_frozen_when_disabled_witness :
    (∀ j ∈ [sampleOffInput], kiEnabled j.enabled = false) ∧
    kiEnabled sampleOnInput.enabled = true ∧
    ((∀ n : Nat,
        ((PIDController.init 1 2 3).updates ([sampleOffInput].take n)).state.integral =
          (PIDController.init 1 2 3).state.integral) ∧
      (((PIDController.init 1 2 3).updates [sampleOffInput]).step sampleOnInput).state.integral =
        clip ((PIDController.init 1 2 3).state.integral +
            (sampleOnInput.setpoint - sampleOnInput.current_value) * sampleOnInput.dt)
          (-(PIDController.init 1 2 3).integral_limit)
          (PIDController.init 1 2 3).integral_limit ∧
      (∀ n : Nat,
        (((PIDController.init 1 2 3).reset).updates ([sampleOffInput].take n)).state.integral = 0)) :=
  ⟨by decide, rfl,
    integral_frozen_when_disabled (PIDController.init 1 2 3) [sampleOffInput]
      sampleOnInput (by decide) rfl⟩

/- ### C4: enabled-integral runs keep the integral within its limits -/

/-- C4: starting from a zeroed state (a freshly constructed or reset
controller; both have `integral_limit = 1000 ≥ 0`), after every call of any
sequence of updates whose masks enable the integral term, `state.integral`
lies in `[-integral_limit, integral_limit]`. -/
theorem integral_bounded_when_enabled (c : PIDController)
    (hc : c.state = PIDState.init) (hlim : 0 ≤ c.integral_limit)
    (l : List PIDInput) (hl : ∀ j ∈ l, kiEnabled j.enabled = true) (n : Nat) :
    -c.integral_limit ≤ (c.updates (l.take n)).state.integral ∧
    (c.updates (l.take n)).state.integral ≤ c.integral_limit := by
  have hc0 : c.state.integral = 0 := by rw [hc]; rfl
  exact updates_integral_bounded c (l.take n) hlim
    (by rw [hc0]; exact ⟨by linarith, hlim⟩)
    (fun j hj => hl j (List.take_subset n l hj))

theorem integral_bounded_when_enabled_witness :
    (PIDController.init 1 2 3).state = PIDState.init ∧
    (0:ℚ) ≤ (PIDController.init 1 2 3).integral_limit ∧
    (∀ j ∈ [sampleOnInput], kiEnabled j.enabled = true) ∧
    (-(PIDController.init 1 2 3).integral_limit ≤
        ((PIDController.init 1 2 3).updates ([sampleOnInput].take 1)).state.integral ∧
      ((PIDController.init 1 2 3).updates ([sampleOnInput].take 1)).state.integral ≤
        (PIDController.init 1 2 3).integral_limit) :=
  ⟨rfl, by norm_num [PIDController.init], by decide,
    integral_bounded_when_enabled (PIDController.init 1 2 3) rfl
      (by norm_num [PIDController.init]) [sampleOnInput] (by decide) 1⟩

/- ### C10: a missing mask key is treated as enabled -/

/-- C10: when the `enabled` dict is present but missing one of the keys
`kp`, `ki`, `kd`, the missing key behaves exactly as if it were present and
set to `True`. -/
theorem missing_mask_key_enables (c : PIDController) (sp cv dt : ℚ)
    (m : EnabledMask) :
    c.update sp cv dt (some { m with kp := none }) =
      c.update sp cv dt (some { m with kp := some true }) ∧
    c.update sp cv dt (some { m with ki := none }) =
      c.update sp cv dt (some { m with ki := some true }) ∧
    c.update sp cv dt (some { m with kd := none }) =
      c.update sp cv dt (some { m with kd := some true }) := ⟨rfl, rfl, rfl⟩
